import Mathlib

/-!
Verification of the `goreleases` repository (`fetch.go`) against its
specification.

The development shallowly embeds `fetch.go` over an abstract filesystem
(an association list from path strings to nodes) and an abstract network
response.  The Go standard-library helpers that `fetch.go` calls
(`path.Clean`, `path.Join`, `path.Dir`, `strings.HasPrefix`,
`strings.HasSuffix`, `fmt.Sprintf "%x"`) are embedded with their documented
semantics; the pure cryptographic hash itself is kept abstract (the digest
of the downloaded bytes is an input), since only the hex encoding and the
comparison logic live in this repository.
-/

set_option autoImplicit false

namespace Goreleases

/-! ## Go `path` and `strings` standard-library model -/

/-- Split a character list on `/` (the separators themselves are dropped;
empty segments are kept, mirroring how `path.Clean` scans the string). -/
def splitSlash : List Char → List (List Char)
  | [] => [[]]
  | c :: cs =>
    let r := splitSlash cs
    if c == '/' then [] :: r
    else
      match r with
      | [] => [[c]]
      | g :: gs => (c :: g) :: gs

/-- Join path elements with `/`. -/
def joinSlash : List (List Char) → List Char
  | [] => []
  | [e] => e
  | e :: rest => e ++ '/' :: joinSlash rest

/-- The element-stack loop of Go `path.Clean`: empty and `.` elements are
dropped, `..` pops the last real element (or is kept when nothing can be
popped and the path is not rooted; dropped at the root when rooted). -/
def cleanLoop (rooted : Bool) : List (List Char) → List (List Char) → List (List Char)
  | acc, [] => acc.reverse
  | acc, e :: rest =>
    if e == [] || e == ['.'] then cleanLoop rooted acc rest
    else if e == ['.', '.'] then
      match acc with
      | top :: acc2 =>
        if top == ['.', '.'] then cleanLoop rooted (e :: acc) rest
        else cleanLoop rooted acc2 rest
      | [] =>
        if rooted then cleanLoop rooted [] rest
        else cleanLoop rooted [e] rest
    else cleanLoop rooted (e :: acc) rest

/-- Go `path.Clean`: lexical normalization of a slash-separated path. -/
def pathClean (s : String) : String :=
  match s.data with
  | [] => "."
  | c :: cs =>
    let rooted := c == '/'
    let body := joinSlash (cleanLoop rooted [] (splitSlash (c :: cs)))
    if rooted then String.mk ('/' :: body)
    else if body == [] then "." else String.mk body

/-- Go `path.Join` for two elements: empty elements are dropped, the rest are
joined with `/` and the result is cleaned; all-empty input yields `""`. -/
def pathJoin (a b : String) : String :=
  if a == "" && b == "" then ""
  else if a == "" then pathClean b
  else if b == "" then pathClean a
  else pathClean (a ++ "/" ++ b)

/-- Everything up to and including the last `/` of a character list
(`""` when there is no slash), as in Go `path.Split`. -/
def takeThroughLastSlash (cs : List Char) : List Char :=
  (cs.reverse.dropWhile (fun c => c != '/')).reverse

/-- Go `path.Dir`: the cleaned directory portion of a path. -/
def pathDir (s : String) : String :=
  pathClean (String.mk (takeThroughLastSlash s.data))

/-- Go `strings.HasPrefix`. -/
def strStarts (s pre : String) : Bool :=
  List.isPrefixOf pre.data s.data

/-- Go `strings.HasSuffix`. -/
def strEnds (s suf : String) : Bool :=
  List.isSuffixOf suf.data s.data

/-- Lowercase hex digit for a value below 16, as produced by `fmt.Sprintf "%x"`. -/
def hexDigit (n : Nat) : Char :=
  if n < 10 then Char.ofNat (48 + n) else Char.ofNat (87 + n)

/-- Two lowercase hex digits of one byte. -/
def hexByte (b : Nat) : List Char :=
  [hexDigit (b / 16 % 16), hexDigit (b % 16)]

/-- Go `fmt.Sprintf "%x"` on a byte slice: lowercase hex, two digits per byte. -/
def hexLower (bs : List Nat) : String :=
  String.mk (bs.map hexByte).flatten

/-- ASCII letter-case folding (uppercase to lowercase), used only to state
case-insensitive string equality. -/
def foldCase (s : String) : String :=
  String.mk (s.data.map (fun c =>
    if 64 < c.toNat && c.toNat < 91 then Char.ofNat (c.toNat + 32) else c))

/-! ## Errors

Each constructor corresponds to one `fmt.Errorf` site (or propagated OS
error) of `fetch.go`; the payloads are the values interpolated there. -/

inductive GoErr where
  /-- A plain `fmt.Errorf` message or propagated OS error. -/
  | msg (s : String)
  /-- `dstName`: `bad path %q in archive, resulting in path %q outside dst %q`. -/
  | badPath (name r dst : String)
  /-- `store`, regular file: `extracting %d bytes, expected %d`. -/
  | sizeMismatch (n size : Int)
  /-- `store`: `unsupported tar header typeflag %v`. -/
  | unsupported (typeflag : Nat)
  /-- `Fetch`: `checksum mismatch, got %x, expected %s`. -/
  | checksum (got expected : String)
  deriving DecidableEq, Repr

/-! ## Abstract filesystem

Paths map to nodes.  The model covers the success/failure behavior of the
OS calls `fetch.go` makes (`os.Create`+`io.Copy`+`Chmod`, `os.Mkdir`,
`os.MkdirAll`, `os.Link`, `os.Symlink`, `os.RemoveAll`): creation calls
that Go reports as failing on an existing target fail here on an existing
key, `os.Link` additionally requires the link target to exist. -/

inductive Node where
  /-- A directory with its permission bits. -/
  | dir (perm : Nat)
  /-- A regular file with its content bytes and permission bits. -/
  | file (content : List Nat) (perm : Nat)
  /-- A symbolic link; `target` is the string stored in the link. -/
  | symlink (target : String)
  /-- A hard link to `target` (kept as a distinct node to track what was created). -/
  | hardlink (target : String)
  deriving DecidableEq, Repr

/-- A filesystem: an association list from path strings to nodes. -/
abbrev Fs := List (String × Node)

/-- Node stored at path `p`, if any. -/
def fsLookup : Fs → String → Option Node
  | [], _ => none
  | (q, n) :: rest, p => if q == p then some n else fsLookup rest p

/-- Set (create or replace) the node at path `p`. -/
def fsSet : Fs → String → Node → Fs
  | [], p, n => [(p, n)]
  | (q, m) :: rest, p, n =>
    if q == p then (q, n) :: rest else (q, m) :: fsSet rest p n

/-- Go `os.RemoveAll p`: removes `p` and everything below it. -/
def fsRemoveAll : Fs → String → Fs
  | [], _ => []
  | e :: rest, p =>
    if e.1 == p || strStarts e.1 (p ++ "/") then fsRemoveAll rest p
    else e :: fsRemoveAll rest p

/-- The chain of component prefixes of a path (used by the `os.MkdirAll`
model): `buildPaths false [] [a, b]` is `["a", "a/b"]`. -/
def buildPaths (rooted : Bool) (cur : List Char) : List (List Char) → List String
  | [] => []
  | e :: rest =>
    let next := if cur.isEmpty then (if rooted then '/' :: e else e) else cur ++ '/' :: e
    String.mk next :: buildPaths rooted next rest

/-- All ancestor paths of `p` (innermost last), skipping `.` (which always
exists). -/
def ancestors (p : String) : List String :=
  let rooted := match p.data with
    | '/' :: _ => true
    | _ => false
  buildPaths rooted [] ((splitSlash p.data).filter (fun e => !(e.isEmpty || e == ['.'])))

/-- Go `os.MkdirAll p 0777`: create, with permission `0o777`, every missing
ancestor directory of `p` and `p` itself; existing entries are left alone.
(`fetch.go` ignores this call's error, so the model is total.) -/
def mkdirAll (fs : Fs) (p : String) : Fs :=
  (ancestors p).foldl
    (fun acc q =>
      match fsLookup acc q with
      | some _ => acc
      | none => fsSet acc q (.dir 0o777))
    fs

/-! ## Data model from `fetch.go` and `archive/tar` -/

/-- `tar.TypeReg` (`'0'`). -/
def TypeReg : Nat := 48
/-- `tar.TypeLink` (`'1'`). -/
def TypeLink : Nat := 49
/-- `tar.TypeSymlink` (`'2'`). -/
def TypeSymlink : Nat := 50
/-- `tar.TypeDir` (`'5'`). -/
def TypeDir : Nat := 53
/-- `tar.TypeXGlobalHeader` (`'g'`). -/
def TypeXGlobalHeader : Nat := 103
/-- `tar.TypeGNUSparse` (`'S'`). -/
def TypeGNUSparse : Nat := 83

/-- The fields of `tar.Header` that `fetch.go` reads. -/
structure Header where
  Name : String
  Linkname : String
  Typeflag : Nat
  Size : Int
  Mode : Int
  deriving DecidableEq, Repr

/-- One archive entry as yielded by `tar.Reader`: its header, the content
bytes the reader can deliver for it (at most `Size` of them; fewer when the
stream is truncated), and the read error, if any, hit after `data` is
exhausted before `Size` bytes were delivered. -/
structure Entry where
  header : Header
  data : List Nat
  rerr : Option String
  deriving DecidableEq, Repr

/-- The fields of the `File` descriptor that `Fetch` reads (the full
struct, declared in `list.go`, also carries `Os`, `Arch` and `Kind`). -/
structure File where
  Filename : String
  Sha256 : String
  deriving DecidableEq, Repr

/-- Result of an `os.Stat` call: success (with whether the target is a
directory), a not-exists error, or any other error. -/
inductive Stat where
  | ok (isDir : Bool)
  | notExist
  | otherErr (e : String)
  deriving DecidableEq, Repr

/-- A successfully opened HTTP response, pre-parsed: status code, the gzip
header error if the body is not valid gzip, the tar entries of the decoded
stream, the error (if any) terminating the entry stream instead of a clean
EOF, and the SHA-256 digest bytes of the raw body (the hash function itself
is outside this repository; its output is an input here). -/
structure Download where
  status : Nat
  gzipErr : Option String
  entries : List Entry
  tarErr : Option String
  digest : List Nat
  deriving DecidableEq, Repr

/-- Result of `http.Get`. -/
inductive Net where
  | fail (e : String)
  | resp (d : Download)
  deriving DecidableEq, Repr

/-- Outcome of `Fetch`: final filesystem, returned error (`none` on
success), and whether the network was contacted. -/
structure FetchOut where
  fs : Fs
  err : Option GoErr
  netCalled : Bool
  deriving DecidableEq, Repr

/-- `(m.emod (2 ^ 32)).toNat &&& 0o777` embeds Go's
`os.FileMode(h.Mode) & os.ModePerm` (an `int64` → `uint32` conversion
followed by masking the permission bits). -/
def permBits (m : Int) : Nat :=
  (m.emod (2 ^ 32)).toNat &&& 0o777

/-! ## `fetch.go` operations -/

/-- `dstName`: join `dst` and the archive-declared `name`, clean, and
reject the result unless it still has `dst` as a string prefix. -/
def dstName (dst name : String) : Except GoErr String :=
  let r := pathClean (pathJoin dst name)
  if !(strStarts r dst) then .error (.badPath name r dst)
  else .ok r

/-- `io.Copy(f, io.LimitReader(tr, h.Size))` byte budget: `LimitReader`
with a non-positive limit delivers nothing. -/
def sizeCap (size : Int) : Nat := size.toNat

/-- The `tar.TypeReg` branch of `store`: `os.Create`, copy at most
`h.Size` bytes, fail on a read error or a byte-count mismatch, then
`Chmod` the declared permission bits.  `os.Create` makes the file with
permission `0o666`; the partial content stays in place on the error paths
(the deferred `Close` does not remove it). -/
def storeReg (e : Entry) (name : String) (fs1 : Fs) : Fs × Option GoErr :=
  let cap := sizeCap e.header.Size
  let written := e.data.take cap
  let n := written.length
  let fs2 := fsSet fs1 name (.file written 0o666)
  if n < cap then
    match e.rerr with
    | some er => (fs2, some (.msg ("extracting: " ++ er)))
    | none => (fs2, some (.sizeMismatch n e.header.Size))
  else if (n : Int) != e.header.Size then (fs2, some (.sizeMismatch n e.header.Size))
  else (fsSet fs2 name (.file written (permBits e.header.Mode)), none)

/-- `os.Link oldname newname`. -/
def osLink (fs : Fs) (oldname newname : String) : Fs × Option GoErr :=
  match fsLookup fs oldname with
  | none => (fs, some (.msg "link: no such file or directory"))
  | some _ =>
    match fsLookup fs newname with
    | some _ => (fs, some (.msg "link: file exists"))
    | none => (fsSet fs newname (.hardlink oldname), none)

/-- `os.Symlink oldname newname`: records `oldname` verbatim as the stored
link target; the target need not exist. -/
def osSymlink (fs : Fs) (oldname newname : String) : Fs × Option GoErr :=
  match fsLookup fs newname with
  | some _ => (fs, some (.msg "symlink: file exists"))
  | none => (fsSet fs newname (.symlink oldname), none)

/-- `os.Mkdir name perm`. -/
def osMkdir (fs : Fs) (name : String) (perm : Nat) : Fs × Option GoErr :=
  match fsLookup fs name with
  | some _ => (fs, some (.msg "mkdir: file exists"))
  | none => (fsSet fs name (.dir perm), none)

/-- `store dst tr h name`: unconditionally `os.MkdirAll (path.Dir name)
0777`, then switch on the typeflag exactly as `fetch.go` does.  Returns
the (possibly partially) mutated filesystem together with the error, if
any. -/
def store (dst : String) (e : Entry) (name : String) (fs : Fs) : Fs × Option GoErr :=
  let fs1 := mkdirAll fs (pathDir name)
  let h := e.header
  if h.Typeflag == TypeReg then
    storeReg e name fs1
  else if h.Typeflag == TypeLink then
    match dstName dst h.Linkname with
    | .error er => (fs1, some er)
    | .ok linkname => osLink fs1 linkname name
  else if h.Typeflag == TypeSymlink then
    match dstName dst h.Linkname with
    | .error er => (fs1, some er)
    | .ok linkname => osSymlink fs1 linkname name
  else if h.Typeflag == TypeDir then
    osMkdir fs1 name 0o777
  else if h.Typeflag == TypeXGlobalHeader || h.Typeflag == TypeGNUSparse then
    (fs1, none)
  else
    (fs1, some (.unsupported h.Typeflag))

/-- The `for { tr.Next(); dstName; store }` loop of `Fetch`: process
entries in order, stopping at the first error; after the last entry the
stream ends either cleanly (`io.EOF`) or with `tarErr`. -/
def extractLoop (dst : String) (entries : List Entry) (tarErr : Option String) (fs : Fs) :
    Fs × Option GoErr :=
  match entries with
  | [] =>
    match tarErr with
    | some e => (fs, some (.msg ("reading next header from tar file: " ++ e)))
    | none => (fs, none)
  | e :: rest =>
    match dstName dst e.header.Name with
    | .error er => (fs, some er)
    | .ok name =>
      let r := store dst e name fs
      match r.2 with
      | some er => (r.1, some er)
      | none => extractLoop dst rest tarErr r.1

/-- `Fetch file dst`: validation (extension, `os.Stat dst`,
`os.Stat (dst/go)`), then the download, the rollback guard
(`os.RemoveAll (dst/go)` unless `success`), the extraction loop, and the
final digest comparison — in the exact order of `fetch.go`.  `statDst` and
`statGo` are the results of the two stat calls; `net` the result of
`http.Get`; `fs` the filesystem when extraction starts. -/
def Fetch (file : File) (dst0 : String) (statDst statGo : Stat) (net : Net) (fs : Fs) :
    FetchOut :=
  if !(strEnds file.Filename ".tar.gz") then
    ⟨fs, some (.msg "file extension not supported, only .tar.gz supported"), false⟩
  else
    match statDst with
    | .notExist => ⟨fs, some (.msg "dst does not exist"), false⟩
    | .otherErr e => ⟨fs, some (.msg e), false⟩
    | .ok isDir =>
      if !isDir then ⟨fs, some (.msg "dst is not a directory"), false⟩
      else
        match statGo with
        | .ok _ => ⟨fs, some (.msg "directory \"go\" already exists"), false⟩
        | _ =>
          let dst := pathClean dst0 ++ "/"
          match net with
          | .fail e => ⟨fs, some (.msg ("downloading file: " ++ e)), true⟩
          | .resp d =>
            if d.status != 200 then
              ⟨fs, some (.msg ("downloading file: status " ++ toString d.status)), true⟩
            else
              match d.gzipErr with
              | some e => ⟨fs, some (.msg ("gzip reader: " ++ e)), true⟩
              | none =>
                let r := extractLoop dst d.entries d.tarErr fs
                match r.2 with
                | some er => ⟨fsRemoveAll r.1 (pathJoin dst "go"), some er, true⟩
                | none =>
                  let sum := hexLower d.digest
                  if sum != file.Sha256 then
                    ⟨fsRemoveAll r.1 (pathJoin dst "go"), some (.checksum sum file.Sha256), true⟩
                  else ⟨r.1, none, true⟩

/-! ## The digesting reader (`hashReader`) -/

/-- `hashReader` wraps a byte source and a running hash.  The source is
modelled as the list of results its successive `Read` calls will return
(each a chunk of bytes together with the error, if any, returned alongside
it); the hash state is the list of all bytes written to it, in order. -/
structure hashReader where
  r : List (List Nat × Option String)
  h : List Nat
  deriving DecidableEq, Repr

/-- One `hashReader.Read`: take the next result of the wrapped source,
write the returned chunk (when nonempty) into the hash, and return the
chunk and error unchanged.  An exhausted source keeps reporting EOF with
no bytes. -/
def hashReader.Read (hr : hashReader) : (List Nat × Option String) × hashReader :=
  match hr.r with
  | [] => (([], some "EOF"), hr)
  | res :: rest =>
    (res, ⟨rest, if res.1.length > 0 then hr.h ++ res.1 else hr.h⟩)

/-- `k` successive `Read` calls: the list of results handed to the caller
and the final reader state. -/
def readN (hr : hashReader) : Nat → List (List Nat × Option String) × hashReader
  | 0 => ([], hr)
  | k + 1 =>
    let s := hashReader.Read hr
    let t := readN s.2 k
    (s.1 :: t.1, t.2)

/-! ## Helper lemmas -/

theorem fsLookup_fsSet_self (fs : Fs) (p : String) (n : Node) :
    fsLookup (fsSet fs p n) p = some n := by
  induction fs with
  | nil => simp [fsSet, fsLookup]
  | cons hd tl ih =>
    by_cases h : hd.1 = p
    · simp [fsSet, fsLookup, h]
    · simp [fsSet, fsLookup, h, ih]

theorem fsLookup_fsRemoveAll (fs : Fs) (p q : String)
    (h : q = p ∨ strStarts q (p ++ "/") = true) :
    fsLookup (fsRemoveAll fs p) q = none := by
  induction fs with
  | nil => rfl
  | cons hd tl ih =>
    by_cases hk : (hd.1 == p || strStarts hd.1 (p ++ "/")) = true
    · simpa [fsRemoveAll, hk] using ih
    · have hq : ¬ hd.1 = q := by
        intro he
        rcases h with h | h
        · exact hk (by simp [he, h])
        · exact hk (by simp [he ▸ h])
      simp [fsRemoveAll, hk, fsLookup, hq, ih]

/-! ## Claims -/

/-- C8: every `Read` on the digesting reader returns exactly the bytes and
error of the wrapped source's corresponding read, and the hash state after
any number of reads is the prior hash state followed by every returned
chunk, in order — including a final chunk returned together with a
terminal error. -/
theorem C8_hashReader_transparent (src : List (List Nat × Option String))
    (acc : List Nat) (k : Nat) (hk : k ≤ src.length) :
    (readN ⟨src, acc⟩ k).1 = src.take k ∧
    (readN ⟨src, acc⟩ k).2.h = acc ++ ((src.take k).map Prod.fst).flatten := by
  induction k generalizing src acc with
  | zero => simp [readN]
  | succ k ih =>
    match src with
    | [] => exact absurd hk (by simp)
    | res :: rest =>
      have hk' : k ≤ rest.length := by simpa using hk
      have h2 := ih rest (if res.1.length > 0 then acc ++ res.1 else acc) hk'
      by_cases h0 : res.1 = []
      · simp only [readN, hashReader.Read, h0, List.length_nil, gt_iff_lt,
          Nat.lt_irrefl, if_false] at h2 ⊢
        simp [h2.1, h2.2, h0]
      · have hl : res.1.length > 0 := List.length_pos.mpr h0
        simp only [readN, hashReader.Read, hl, if_pos] at h2 ⊢
        simp [h2.1, h2.2]

/-- Witness for C8 at a concrete source ending in a chunk delivered
together with a terminal error. -/
theorem C8_witness :
    2 ≤ ([([1, 2], none), ([3], some "boom")] : List (List Nat × Option String)).length ∧
    (readN ⟨[([1, 2], none), ([3], some "boom")], []⟩ 2).1 =
      [([1, 2], none), ([3], some "boom")] ∧
    (readN ⟨[([1, 2], none), ([3], some "boom")], []⟩ 2).2.h = [1, 2, 3] :=
  ⟨by decide,
   (C8_hashReader_transparent [([1, 2], none), ([3], some "boom")] [] 2 (by decide)).1,
   (C8_hashReader_transparent [([1, 2], none), ([3], some "boom")] [] 2 (by decide)).2⟩

/-- C9: when the `os.Stat` on the reserved `go` subdirectory fails with an
error other than not-exists, `Fetch` does not abort at validation but
proceeds to the network request (for any network outcome). -/
theorem C9_stat_error_not_fatal (file : File) (dst0 : String) (msg : String)
    (net : Net) (fs : Fs) (h1 : strEnds file.Filename ".tar.gz" = true) :
    (Fetch file dst0 (.ok true) (.otherErr msg) net fs).netCalled = true := by
  rcases net with e | d
  · simp [Fetch, h1]
  · simp only [Fetch, h1, Bool.not_true, Bool.false_eq_true, if_false]
    by_cases hs : (d.status != 200) = true
    · simp [hs]
    · simp only [hs, if_false]
      rcases hg : d.gzipErr with _ | e
      · rcases hr : (extractLoop (pathClean dst0 ++ "/") d.entries d.tarErr fs).2 with _ | er
        · simp only [hr]
          split <;> first
          | rfl
          | split <;> rfl
        · simp [hr]
      · simp

/-- Witness for C9 at a concrete input. -/
theorem C9_witness :
    strEnds (File.mk "go1.tar.gz" "ab").Filename ".tar.gz" = true ∧
    (Fetch (File.mk "go1.tar.gz" "ab") "/d" (.ok true) (.otherErr "permission denied")
      (.fail "net down") [("/d", .dir 0o777)]).netCalled = true :=
  ⟨by decide,
   C9_stat_error_not_fatal (File.mk "go1.tar.gz" "ab") "/d" "permission denied"
     (.fail "net down") [("/d", .dir 0o777)] (by decide)⟩

/-- C4: whenever the filename lacks the `.tar.gz` suffix, the destination
does not exist, the destination is not a directory, or the destination
already contains the `go` subdirectory, `Fetch` returns an error with the
filesystem unchanged and without contacting the network. -/
theorem C4_validation_aborts (file : File) (dst0 : String) (statDst statGo : Stat)
    (net : Net) (fs : Fs)
    (h : strEnds file.Filename ".tar.gz" = false ∨ statDst = .notExist ∨
      statDst = .ok false ∨ ∃ b, statGo = .ok b) :
    (Fetch file dst0 statDst statGo net fs).err.isSome = true ∧
    (Fetch file dst0 statDst statGo net fs).netCalled = false ∧
    (Fetch file dst0 statDst statGo net fs).fs = fs := by
  rcases hE : strEnds file.Filename ".tar.gz" with _ | _
  · simp [Fetch, hE]
  · rcases h with h | h | h | ⟨b, h⟩
    · rw [hE] at h; exact absurd h (by simp)
    · simp [Fetch, hE, h]
    · simp [Fetch, hE, h]
    · subst h
      rcases statDst with isDir | _ | e
      · rcases isDir with _ | _ <;> simp [Fetch, hE]
      · simp [Fetch, hE]
      · simp [Fetch, hE]

/-- Witness for C4: destination already contains `go`. -/
theorem C4_witness :
    (∃ b, (Stat.ok true : Stat) = Stat.ok b) ∧
    ((Fetch (File.mk "go1.tar.gz" "ab") "/d" (.ok true) (.ok true)
        (.fail "must not be called") [("/d", .dir 0o777)]).err.isSome = true ∧
      (Fetch (File.mk "go1.tar.gz" "ab") "/d" (.ok true) (.ok true)
        (.fail "must not be called") [("/d", .dir 0o777)]).netCalled = false ∧
      (Fetch (File.mk "go1.tar.gz" "ab") "/d" (.ok true) (.ok true)
        (.fail "must not be called") [("/d", .dir 0o777)]).fs = [("/d", .dir 0o777)]) :=
  ⟨⟨true, rfl⟩,
   C4_validation_aborts (File.mk "go1.tar.gz" "ab") "/d" (.ok true) (.ok true)
     (.fail "must not be called") [("/d", .dir 0o777)]
     (Or.inr (Or.inr (Or.inr ⟨true, rfl⟩)))⟩

/-- C5: for a regular-file entry, `store` creates the file, copies at most
the declared size bytes from the entry's bounded sub-stream, succeeds
exactly when the copied byte count equals the declared header size (any
mismatch — truncated data or a negative declared size — is an error, never
silent truncation or padding), and on success the created file carries the
entry's declared permission bits. -/
theorem C5_regular_file (dst name : String) (e : Entry) (fs : Fs)
    (ht : e.header.Typeflag = TypeReg) :
    ((store dst e name fs).2 = none ↔
      (((e.data.take (sizeCap e.header.Size)).length : Int) = e.header.Size)) ∧
    fsLookup (store dst e name fs).1 name =
      some (.file (e.data.take (sizeCap e.header.Size))
        (if (store dst e name fs).2 = none then permBits e.header.Mode else 0o666)) ∧
    (e.data.take (sizeCap e.header.Size)).length ≤ sizeCap e.header.Size := by
  have hbeq : (e.header.Typeflag == TypeReg) = true := by simp [ht]
  have hle : (e.data.take (sizeCap e.header.Size)).length ≤ sizeCap e.header.Size := by
    simp [List.length_take]
  by_cases hA : e.data.length < sizeCap e.header.Size
  · have hne : ¬ (((sizeCap e.header.Size : Int)) ⊓ ((e.data.length : Int)) = e.header.Size) := by
      unfold sizeCap at hA ⊢
      omega
    rcases hre : e.rerr with _ | er <;>
      simp [store, hbeq, storeReg, hA, hre, fsLookup_fsSet_self, hne, hle]
  · by_cases hB : ((sizeCap e.header.Size : Int)) ⊓ ((e.data.length : Int)) = e.header.Size
    · simp [store, hbeq, storeReg, hA, hB, fsLookup_fsSet_self, hle]
    · simp [store, hbeq, storeReg, hA, hB, fsLookup_fsSet_self, hle]

/-- Witness for C5: a complete 3-byte file with mode `0o644`, and (packed
into the same run of the theorem at a second input) a truncated entry
failing. -/
theorem C5_witness :
    ((⟨⟨"go/VERSION", "", TypeReg, 3, 420⟩, [103, 111, 49], none⟩ : Entry).header.Typeflag
      = TypeReg) ∧
    (store "/d/" ⟨⟨"go/VERSION", "", TypeReg, 3, 420⟩, [103, 111, 49], none⟩ "/d/go/VERSION"
        [("/d", .dir 0o777)]).2 = none ∧
    fsLookup (store "/d/" ⟨⟨"go/VERSION", "", TypeReg, 3, 420⟩, [103, 111, 49], none⟩
        "/d/go/VERSION" [("/d", .dir 0o777)]).1 "/d/go/VERSION" =
      some (.file [103, 111, 49] 420) := by
  refine ⟨rfl, ?_, ?_⟩
  · exact (C5_regular_file "/d/" "/d/go/VERSION"
      ⟨⟨"go/VERSION", "", TypeReg, 3, 420⟩, [103, 111, 49], none⟩
      [("/d", .dir 0o777)] rfl).1.mpr (by decide)
  · have h := (C5_regular_file "/d/" "/d/go/VERSION"
      ⟨⟨"go/VERSION", "", TypeReg, 3, 420⟩, [103, 111, 49], none⟩
      [("/d", .dir 0o777)] rfl).2.1
    simpa using h

/-- C7 counterexample: a directory entry declaring mode `0o555` is created
with permission bits `0o777`, not the declared bits — `store` passes the
fixed constant `0777` to `os.Mkdir` and never reads the header mode for
directories. -/
theorem C7_counterexample :
    (store "/d/" ⟨⟨"go/", "", TypeDir, 0, 0o555⟩, [], none⟩ "/d/go"
        [("/d", .dir 0o777)]).2 = none ∧
    fsLookup (store "/d/" ⟨⟨"go/", "", TypeDir, 0, 0o555⟩, [], none⟩ "/d/go"
        [("/d", .dir 0o777)]).1 "/d/go" = some (.dir 0o777) ∧
    permBits 0o555 ≠ 0o777 := by
  refine ⟨by decide, by decide, by decide⟩

/-- C7 amended: for a directory entry whose target does not already exist,
`store` creates the directory with the fixed permission bits `0o777`,
ignoring the mode declared in the entry's header. -/
theorem C7_amended_dir_fixed_perm (dst name : String) (e : Entry) (fs : Fs)
    (ht : e.header.Typeflag = TypeDir)
    (hfree : fsLookup (mkdirAll fs (pathDir name)) name = none) :
    store dst e name fs = (fsSet (mkdirAll fs (pathDir name)) name (.dir 0o777), none) ∧
    fsLookup (store dst e name fs).1 name = some (.dir 0o777) := by
  have hs : store dst e name fs
      = (fsSet (mkdirAll fs (pathDir name)) name (.dir 0o777), none) := by
    simp [store, ht, TypeReg, TypeLink, TypeSymlink, TypeDir, TypeXGlobalHeader,
      TypeGNUSparse, osMkdir, hfree]
  exact ⟨hs, by rw [hs]; exact fsLookup_fsSet_self _ _ _⟩

/-- Witness for C7 at the counterexample's input. -/
theorem C7_witness :
    fsLookup (store "/d/" ⟨⟨"go/", "", TypeDir, 0, 0o555⟩, [], none⟩ "/d/go"
        [("/d", .dir 0o777)]).1 "/d/go" = some (.dir 0o777) :=
  (C7_amended_dir_fixed_perm "/d/" "/d/go" ⟨⟨"go/", "", TypeDir, 0, 0o555⟩, [], none⟩
    [("/d", .dir 0o777)] rfl (by decide)).2

/-- C6 counterexample: processing a global-header entry is not free of
filesystem mutation — `store` unconditionally runs
`os.MkdirAll(path.Dir(name), 0777)` before switching on the typeflag, so a
global-header entry whose parent directories are missing creates them:
here `/d/go` and `/d/go/a` appear even though the entry is skipped. -/
theorem C6_counterexample :
    (store "/d/" ⟨⟨"go/a/b", "", TypeXGlobalHeader, 0, 0⟩, [], none⟩ "/d/go/a/b"
        [("/d", .dir 0o777)]).2 = none ∧
    fsLookup (store "/d/" ⟨⟨"go/a/b", "", TypeXGlobalHeader, 0, 0⟩, [], none⟩ "/d/go/a/b"
        [("/d", .dir 0o777)]).1 "/d/go" = some (.dir 0o777) ∧
    fsLookup [("/d", Node.dir 0o777)] "/d/go" = none := by
  refine ⟨by decide, by decide, by decide⟩

/-- C6 amended: apart from the parent-directory creation
(`os.MkdirAll(path.Dir(name), 0777)`) that `store` performs for every
entry type, a global-header or sparse-extension entry causes no filesystem
mutation and no error; an entry of any type other than regular file,
directory, hard link, symbolic link, global header, or sparse extension
fails with an unsupported-entry-type error, likewise mutating nothing
beyond that parent-directory creation. -/
theorem C6_amended_skip_and_unsupported (dst name : String) (e : Entry) (fs : Fs) :
    ((e.header.Typeflag = TypeXGlobalHeader ∨ e.header.Typeflag = TypeGNUSparse) →
      store dst e name fs = (mkdirAll fs (pathDir name), none)) ∧
    (e.header.Typeflag ≠ TypeReg → e.header.Typeflag ≠ TypeLink →
      e.header.Typeflag ≠ TypeSymlink → e.header.Typeflag ≠ TypeDir →
      e.header.Typeflag ≠ TypeXGlobalHeader → e.header.Typeflag ≠ TypeGNUSparse →
      store dst e name fs =
        (mkdirAll fs (pathDir name), some (.unsupported e.header.Typeflag))) := by
  constructor
  · rintro (h | h) <;>
      simp [store, h, TypeReg, TypeLink, TypeSymlink, TypeDir, TypeXGlobalHeader,
        TypeGNUSparse]
  · intro h1 h2 h3 h4 h5 h6
    simp [store, h1, h2, h3, h4, h5, h6]

/-- Witness for C6: a global-header entry is skipped without error, and an
entry with the unknown typeflag `120` (`'x'`) is rejected. -/
theorem C6_witness :
    store "/d/" ⟨⟨"x", "", TypeXGlobalHeader, 0, 0⟩, [], none⟩ "/d/x" [("/d", .dir 0o777)]
      = (mkdirAll [("/d", .dir 0o777)] (pathDir "/d/x"), none) ∧
    store "/d/" ⟨⟨"x", "", 120, 0, 0⟩, [], none⟩ "/d/x" [("/d", .dir 0o777)]
      = (mkdirAll [("/d", .dir 0o777)] (pathDir "/d/x"), some (.unsupported 120)) :=
  ⟨(C6_amended_skip_and_unsupported "/d/" "/d/x" ⟨⟨"x", "", TypeXGlobalHeader, 0, 0⟩, [], none⟩
      [("/d", .dir 0o777)]).1 (Or.inl rfl),
   (C6_amended_skip_and_unsupported "/d/" "/d/x" ⟨⟨"x", "", 120, 0, 0⟩, [], none⟩
      [("/d", .dir 0o777)]).2 (by decide) (by decide) (by decide) (by decide)
      (by decide) (by decide)⟩

/-- C10: for a symbolic-link entry that passes sanitization, the created
symlink's stored target is the sanitized path — the destination joined
with the declared link target and cleaned (which retains `dst` as a
prefix) — and therefore differs from the declared link-target string
whenever that string does not itself start with the destination. -/
theorem C10_symlink_stored_target (dst name ln : String) (e : Entry) (fs : Fs)
    (ht : e.header.Typeflag = TypeSymlink)
    (hl : dstName dst e.header.Linkname = .ok ln)
    (hfree : fsLookup (mkdirAll fs (pathDir name)) name = none) :
    store dst e name fs = (fsSet (mkdirAll fs (pathDir name)) name (.symlink ln), none) ∧
    ln = pathClean (pathJoin dst e.header.Linkname) ∧
    strStarts ln dst = true ∧
    (strStarts e.header.Linkname dst = false → ln ≠ e.header.Linkname) := by
  have hok : ln = pathClean (pathJoin dst e.header.Linkname) ∧
      strStarts (pathClean (pathJoin dst e.header.Linkname)) dst = true := by
    unfold dstName at hl
    by_cases hp : strStarts (pathClean (pathJoin dst e.header.Linkname)) dst = true
    · simp [hp] at hl
      exact ⟨hl.symm, hp⟩
    · simp [Bool.not_eq_true] at hp
      simp [hp] at hl
  refine ⟨?_, hok.1, hok.1 ▸ hok.2, ?_⟩
  · simp [store, ht, TypeReg, TypeLink, TypeSymlink, osSymlink, hl, hfree]
  · intro hrel hcontra
    rw [hcontra] at hok
    have h2 : strStarts e.header.Linkname dst = true := by
      rw [hok.1]
      exact hok.2
    rw [hrel] at h2
    exact absurd h2 (by simp)

/-- Witness for C10 at a concrete symlink entry (`go/bin/link` pointing at
the archive-relative `go/pkg/tool`). -/
theorem C10_witness :
    store "/d/" ⟨⟨"go/bin/link", "go/pkg/tool", TypeSymlink, 0, 0o777⟩, [], none⟩
        "/d/go/bin/link" [("/d", .dir 0o777)]
      = (fsSet (mkdirAll [("/d", .dir 0o777)] (pathDir "/d/go/bin/link")) "/d/go/bin/link"
          (.symlink "/d/go/pkg/tool"), none) ∧
    "/d/go/pkg/tool" ≠ "go/pkg/tool" := by
  have h := C10_symlink_stored_target "/d/" "/d/go/bin/link" "/d/go/pkg/tool"
    ⟨⟨"go/bin/link", "go/pkg/tool", TypeSymlink, 0, 0o777⟩, [], none⟩
    [("/d", .dir 0o777)] rfl (by rfl) (by decide)
  exact ⟨h.1, h.2.2.2 (by decide)⟩

/-- C1 counterexample: the traversal check constrains entries to the
destination directory, not to the `go` subdirectory.  The entry `evil`
normalizes to `/d/evil`, which is outside the extraction root `/d/go/`,
yet it is not rejected: the fetch succeeds and the file is materialized
directly under the destination. -/
theorem C1_counterexample :
    (Fetch ⟨"go1.tar.gz", "ab"⟩ "/d" (.ok true) .notExist
        (.resp ⟨200, none, [⟨⟨"evil", "", TypeReg, 0, 420⟩, [], none⟩], none, [171]⟩)
        [("/d", .dir 0o777)]).err = none ∧
    fsLookup (Fetch ⟨"go1.tar.gz", "ab"⟩ "/d" (.ok true) .notExist
        (.resp ⟨200, none, [⟨⟨"evil", "", TypeReg, 0, 420⟩, [], none⟩], none, [171]⟩)
        [("/d", .dir 0o777)]).fs "/d/evil" = some (.file [] 420) ∧
    pathClean (pathJoin "/d/" "evil") = "/d/evil" ∧
    strStarts "/d/evil" "/d/go/" = false := by
  refine ⟨by decide, by decide, by decide, by decide⟩

/-- C1 amended: the normalized target path (join with the destination,
then clean) is required to keep the sanitized destination directory —
`path.Clean(dst)` with trailing separator, not the `go` subdirectory — as
a string prefix.  The entry's own path is checked before any filesystem
mutation for that entry (a failure leaves the filesystem untouched); a
path is accepted exactly when the prefix holds, and rejected with the
path-traversal error otherwise.  For hard-link and symbolic-link entries
the declared link target is checked the same way inside `store`, after the
parent directories of the already-validated entry path are created but
before the link itself is created. -/
theorem C1_amended_traversal_check (dst nm : String) (e : Entry) (rest : List Entry)
    (te : Option String) (fs : Fs) :
    (∀ er, dstName dst e.header.Name = .error er →
      extractLoop dst (e :: rest) te fs = (fs, some er)) ∧
    (∀ r, dstName dst nm = .ok r →
      r = pathClean (pathJoin dst nm) ∧ strStarts r dst = true) ∧
    (∀ er, dstName dst nm = .error er →
      strStarts (pathClean (pathJoin dst nm)) dst = false ∧
      er = .badPath nm (pathClean (pathJoin dst nm)) dst) ∧
    (∀ name er, e.header.Typeflag = TypeLink ∨ e.header.Typeflag = TypeSymlink →
      dstName dst e.header.Linkname = .error er →
      store dst e name fs = (mkdirAll fs (pathDir name), some er)) := by
  refine ⟨?_, ?_, ?_, ?_⟩
  · intro er h
    simp [extractLoop, h]
  · intro r h
    unfold dstName at h
    by_cases hp : strStarts (pathClean (pathJoin dst nm)) dst = true
    · simp [hp] at h
      exact ⟨h.symm, h ▸ hp⟩
    · simp [Bool.not_eq_true] at hp
      simp [hp] at h
  · intro er h
    unfold dstName at h
    by_cases hp : strStarts (pathClean (pathJoin dst nm)) dst = true
    · simp [hp] at h
    · simp [Bool.not_eq_true] at hp
      simp [hp] at h
      exact ⟨hp, h.symm⟩
  · intro name er hty hl
    rcases hty with h | h <;>
      simp [store, h, TypeReg, TypeLink, TypeSymlink, hl]

/-- Witness for C1: a traversal entry `../x` is rejected with the
filesystem untouched; `go/f` is accepted with the destination prefix; a
hard-link entry whose declared target `../y` escapes is rejected with only
the entry path's parent-directory creation having happened. -/
theorem C1_witness :
    extractLoop "/d/" [⟨⟨"../x", "", TypeReg, 0, 420⟩, [], none⟩] none [("/d", .dir 0o777)]
      = ([("/d", .dir 0o777)], some (.badPath "../x" "/x" "/d/")) ∧
    ("/d/go/f" = pathClean (pathJoin "/d/" "go/f") ∧ strStarts "/d/go/f" "/d/" = true) ∧
    (strStarts (pathClean (pathJoin "/d/" "../z")) "/d/" = false ∧
      (GoErr.badPath "../z" "/z" "/d/")
        = .badPath "../z" (pathClean (pathJoin "/d/" "../z")) "/d/") ∧
    store "/d/" ⟨⟨"lnk", "../y", TypeLink, 0, 0⟩, [], none⟩ "/d/lnk" [("/d", .dir 0o777)]
      = (mkdirAll [("/d", .dir 0o777)] (pathDir "/d/lnk"), some (.badPath "../y" "/y" "/d/")) :=
  ⟨(C1_amended_traversal_check "/d/" "x" ⟨⟨"../x", "", TypeReg, 0, 420⟩, [], none⟩ []
      none [("/d", .dir 0o777)]).1 (.badPath "../x" "/x" "/d/") (by rfl),
   (C1_amended_traversal_check "/d/" "go/f" ⟨⟨"../x", "", TypeReg, 0, 420⟩, [], none⟩ []
      none [("/d", .dir 0o777)]).2.1 "/d/go/f" (by rfl),
   (C1_amended_traversal_check "/d/" "../z" ⟨⟨"../x", "", TypeReg, 0, 420⟩, [], none⟩ []
      none [("/d", .dir 0o777)]).2.2.1 (.badPath "../z" "/z" "/d/") (by rfl),
   (C1_amended_traversal_check "/d/" "x" ⟨⟨"lnk", "../y", TypeLink, 0, 0⟩, [], none⟩ []
      none [("/d", .dir 0o777)]).2.2.2 "/d/lnk" (.badPath "../y" "/y" "/d/")
      (Or.inl rfl) (by rfl)⟩

/-- C2 counterexample: after a failure (digest mismatch), the destination
is not otherwise unchanged — the `evil` entry extracted outside the `go`
subdirectory survives the rollback, which removes only `dst/go`. -/
theorem C2_counterexample :
    (Fetch ⟨"go1.tar.gz", "ff"⟩ "/d" (.ok true) .notExist
        (.resp ⟨200, none, [⟨⟨"evil", "", TypeReg, 0, 420⟩, [], none⟩], none, [171]⟩)
        [("/d", .dir 0o777)]).err = some (.checksum "ab" "ff") ∧
    fsLookup (Fetch ⟨"go1.tar.gz", "ff"⟩ "/d" (.ok true) .notExist
        (.resp ⟨200, none, [⟨⟨"evil", "", TypeReg, 0, 420⟩, [], none⟩], none, [171]⟩)
        [("/d", .dir 0o777)]).fs "/d/evil" = some (.file [] 420) ∧
    fsLookup [("/d", Node.dir 0o777)] "/d/evil" = none := by
  refine ⟨by decide, by decide, by decide⟩

/-- C2 amended: for every failure once the rollback guard is installed
(any extraction-loop error or the digest mismatch), `os.RemoveAll` on the
`go` subdirectory of the cleaned destination runs before the error is
returned, so afterwards neither that subdirectory nor anything below it
exists; entries extracted outside the `go` subdirectory (still inside the
destination) are not removed. -/
theorem C2_amended_rollback (file : File) (dst0 : String) (statGo : Stat) (d : Download)
    (fs : Fs) (q : String)
    (hext : strEnds file.Filename ".tar.gz" = true)
    (hgo : ∀ b, statGo ≠ .ok b)
    (hst : d.status = 200) (hgz : d.gzipErr = none)
    (herr : (Fetch file dst0 (.ok true) statGo (.resp d) fs).err ≠ none)
    (hq : q = pathJoin (pathClean dst0 ++ "/") "go" ∨
      strStarts q (pathJoin (pathClean dst0 ++ "/") "go" ++ "/") = true) :
    fsLookup (Fetch file dst0 (.ok true) statGo (.resp d) fs).fs q = none := by
  have key : (Fetch file dst0 (.ok true) statGo (.resp d) fs).err = none ∨
      (Fetch file dst0 (.ok true) statGo (.resp d) fs).fs
        = fsRemoveAll (extractLoop (pathClean dst0 ++ "/") d.entries d.tarErr fs).1
            (pathJoin (pathClean dst0 ++ "/") "go") := by
    rcases statGo with b | _ | msg
    · exact absurd rfl (hgo b)
    · rcases hr : (extractLoop (pathClean dst0 ++ "/") d.entries d.tarErr fs).2 with _ | er
      · by_cases hsum : hexLower d.digest = file.Sha256
        · left
          simp [Fetch, hext, hst, hgz, hr, hsum]
        · right
          simp [Fetch, hext, hst, hgz, hr, hsum]
      · right
        simp [Fetch, hext, hst, hgz, hr]
    · rcases hr : (extractLoop (pathClean dst0 ++ "/") d.entries d.tarErr fs).2 with _ | er
      · by_cases hsum : hexLower d.digest = file.Sha256
        · left
          simp [Fetch, hext, hst, hgz, hr, hsum]
        · right
          simp [Fetch, hext, hst, hgz, hr, hsum]
      · right
        simp [Fetch, hext, hst, hgz, hr]
  rcases key with k | k
  · exact absurd k herr
  · rw [k]
    exact fsLookup_fsRemoveAll _ _ _ hq

/-- Witness for C2: a failing fetch (digest mismatch) whose archive had
created `/d/go`; afterwards `/d/go` is gone. -/
theorem C2_witness :
    fsLookup (Fetch ⟨"go1.tar.gz", "ff"⟩ "/d" (.ok true) .notExist
        (.resp ⟨200, none, [⟨⟨"go/", "", TypeDir, 0, 0o755⟩, [], none⟩], none, [171]⟩)
        [("/d", .dir 0o777)]).fs "/d/go" = none :=
  C2_amended_rollback ⟨"go1.tar.gz", "ff"⟩ "/d" .notExist
    ⟨200, none, [⟨⟨"go/", "", TypeDir, 0, 0o755⟩, [], none⟩], none, [171]⟩
    [("/d", .dir 0o777)] "/d/go" (by decide) (fun b h => by cases h) rfl rfl
    (by decide) (Or.inl (by decide))

/-- C3 counterexample: the digest comparison is not case-insensitive.  The
accumulated digest `0xab` hex-encodes (lowercase) to `"ab"`; with the
expected digest given as `"AB"` — equal up to letter case — `Fetch` fails
with a checksum-mismatch error instead of succeeding. -/
theorem C3_counterexample :
    (Fetch ⟨"go1.tar.gz", "AB"⟩ "/d" (.ok true) .notExist
        (.resp ⟨200, none, [], none, [171]⟩) [("/d", .dir 0o777)]).err
      = some (.checksum "ab" "AB") ∧
    hexLower [171] = "ab" ∧
    foldCase "AB" = foldCase "ab" := by
  refine ⟨by decide, by decide, by decide⟩

/-- C3 amended: after the entry stream is exhausted without error, `Fetch`
encodes the accumulated digest as lowercase hex and compares it to the
File descriptor's expected digest by exact (case-sensitive) string
equality; it succeeds if and only if the two strings are exactly equal,
failing with a checksum-mismatch error otherwise. -/
theorem C3_amended_exact_compare (file : File) (dst0 : String) (statGo : Stat)
    (d : Download) (fs : Fs)
    (hext : strEnds file.Filename ".tar.gz" = true)
    (hgo : ∀ b, statGo ≠ .ok b)
    (hst : d.status = 200) (hgz : d.gzipErr = none)
    (hloop : (extractLoop (pathClean dst0 ++ "/") d.entries d.tarErr fs).2 = none) :
    (Fetch file dst0 (.ok true) statGo (.resp d) fs).err = none ↔
      hexLower d.digest = file.Sha256 := by
  rcases statGo with b | _ | msg
  · exact absurd rfl (hgo b)
  · by_cases hsum : hexLower d.digest = file.Sha256 <;>
      simp [Fetch, hext, hst, hgz, hloop, hsum]
  · by_cases hsum : hexLower d.digest = file.Sha256 <;>
      simp [Fetch, hext, hst, hgz, hloop, hsum]

/-- Witness for C3: with the expected digest in lowercase, the same run
succeeds. -/
theorem C3_witness :
    (Fetch ⟨"go1.tar.gz", "ab"⟩ "/d" (.ok true) .notExist
        (.resp ⟨200, none, [], none, [171]⟩) [("/d", .dir 0o777)]).err = none :=
  (C3_amended_exact_compare ⟨"go1.tar.gz", "ab"⟩ "/d" .notExist
      ⟨200, none, [], none, [171]⟩ [("/d", .dir 0o777)] (by decide)
      (fun b h => by cases h) rfl rfl (by decide)).mpr (by decide)

end Goreleases
